import Mathlib

/-!
Verification of dugaire (src/dugaire/dugaire.py): a CLI tool that composes a
Dockerfile from template fragments (base image, apt packages, pip3 packages,
kubectl installer), optionally submits it to the docker build API, and lists
images previously built with the tool's marker label.

The `build` command's Dockerfile composition (lines 94-115) is embedded as the
pure function `compose`; the build step (lines 117-141) as `runBuild`, explicit
in an environment `DockerEnv` that supplies the uuid4 stream and the docker
build API; the `list` command (lines 151-166) as `runList`, a function of the
images returned by the label-filtered query.

The Jinja2 template files (base.j2, apt.j2, pip3.j2, with_kubectl.j2) and the
helper module util.py are not part of the sources; their renderings are
modelled from the spec and marked as such below.
-/

set_option maxRecDepth 8192

namespace Dugaire

/-- Python string slice `s[:n]`. -/
def pyTake (n : Nat) (s : String) : String := ⟨s.data.take n⟩

/-- Python `s.replace(',', ' ')` (lines 100 and 105). The pattern is a single
character, so the substring replacement coincides with the character-wise map
sending each comma to a space. -/
def replaceCommaSpace (s : String) : String :=
  ⟨s.data.map (fun c => if c = ',' then ' ' else c)⟩

/-- Python truthiness of an optional string (`if apt:` at lines 99, 104, 109):
true iff the value is present and non-empty. -/
def truthy : Option String → Bool
  | none => false
  | some s => !(s == "")

/-- Modelled from the spec: util.get_dugaire_image_label is not among the
sources; the MarkerLabel is "a fixed key (and static value) attached to every
image built by this tool". -/
def dugaire_image_label : String := "builtwith=dugaire"

/-- Modelled from the spec: the template file base.j2 is not among the sources;
the base fragment "embeds the base image reference and the marker label"
(line 97 renders it with from_ and the label). -/
def render_base (from_ label : String) : String :=
  "FROM " ++ from_ ++ "\nLABEL " ++ label ++ "\n"

/-- Modelled from the spec: apt.j2 is not among the sources; the packages are
"joined into a single space-separated install command argument" (line 102). -/
def render_apt (packages : String) : String :=
  "RUN apt-get update && apt-get install -y " ++ packages ++ "\n"

/-- Modelled from the spec: pip3.j2 is not among the sources; "same joining
rule" as the apt fragment (line 107). -/
def render_pip3 (packages : String) : String :=
  "RUN pip3 install " ++ packages ++ "\n"

/-- Text before the url in the kubectl fragment (modelled from the spec:
with_kubectl.j2 is not among the sources; the fragment embeds the download
url, line 115). -/
def kubectl_frag_pre : String := "RUN curl -LO "

/-- Text after the url in the kubectl fragment (modelled from the spec). -/
def kubectl_frag_post : String :=
  " && chmod +x ./kubectl && mv ./kubectl /usr/local/bin/kubectl\n"

/-- Modelled from the spec: with_kubectl.j2 is not among the sources; the
fragment embeds the download url (line 115). -/
def render_with_kubectl (url : String) : String :=
  kubectl_frag_pre ++ url ++ kubectl_frag_post

/-- The url used for `--with-kubectl=latest` (line 110): it embeds a build-time
resolution command around the stable-release lookup. -/
def kubectl_url_latest : String :=
  "https://storage.googleapis.com/kubernetes-release/release/$(curl -s https://storage.googleapis.com/kubernetes-release/release/stable.txt)/bin/linux/amd64/kubectl"

/-- The part of the versioned url before the version, ending in the literal
`v` (line 112). -/
def kubectl_release_v : String :=
  "https://storage.googleapis.com/kubernetes-release/release/v"

/-- The part of the versioned url after the version (line 112). -/
def kubectl_url_post : String := "/bin/linux/amd64/kubectl"

/-- Lines 110-112: the download url for the requested kubectl version; the
sentinel "latest" keeps the resolution url, any other version is spliced into
the direct versioned url. -/
def kubectl_url (with_kubectl : String) : String :=
  let url := kubectl_url_latest
  if with_kubectl != "latest" then
    kubectl_release_v ++ with_kubectl ++ kubectl_url_post
  else url

/-- Lines 94-115 of `build`: the Dockerfile text is accumulated from the base
fragment and the three optional fragments, each appended only when its input
is truthy. -/
def compose (from_ : String) (apt pip3 with_kubectl : Option String) : String :=
  let dockerfile := ""
  let dockerfile := dockerfile ++ render_base from_ dugaire_image_label
  let dockerfile :=
    if truthy apt then
      dockerfile ++ render_apt (replaceCommaSpace (apt.getD ""))
    else dockerfile
  let dockerfile :=
    if truthy pip3 then
      dockerfile ++ render_pip3 (replaceCommaSpace (pip3.getD ""))
    else dockerfile
  let dockerfile :=
    if truthy with_kubectl then
      dockerfile ++ render_with_kubectl (kubectl_url (with_kubectl.getD ""))
    else dockerfile
  dockerfile

/-- The `--output` choice (lines 66-71). -/
inductive OutputMode where
  | image_id
  | image_name
  | dockerfile
deriving DecidableEq

/-- The arguments of the `build` command (lines 29-73). -/
structure BuildRequest where
  from_ : String
  apt : Option String
  pip3 : Option String
  with_kubectl : Option String
  name : String
  dry_run : Bool
  output : OutputMode

/-- The attrs of a built image as read back from the docker API
(lines 133-134). -/
structure ImageAttrs where
  id : String
  repoTags : List String

/-- The external world of one `build` invocation: the uuid4 stream (line 124
and 125 draw from it) and the docker build API (line 128). -/
structure DockerEnv where
  uuids : Nat → String
  buildApi : String → String → ImageAttrs

/-- Observable outcome of one `build` invocation: the composed Dockerfile, the
submissions made to the build API (Dockerfile text and tag), how many uuids
were drawn, and what was echoed (none models echoing the null value). -/
structure RunResult where
  dockerfile : String
  apiCalls : List (String × String)
  uuidsUsed : Nat
  printed : Option String

/-- Lines 94-141: the whole `build` command. When dry_run is set the docker
client is never created (lines 119-134 are skipped) and image id and name stay
null; otherwise the submission tag is the given name, or a fresh
`dug-<uuid[:8]>:<uuid[:8]>` pair when the name is the sentinel "random".
`repoTags.headD ""` stands for Python `image.attrs["RepoTags"][0]`. -/
def runBuild (req : BuildRequest) (env : DockerEnv) : RunResult :=
  let dockerfile := compose req.from_ req.apt req.pip3 req.with_kubectl
  if req.dry_run then
    { dockerfile := dockerfile, apiCalls := [], uuidsUsed := 0,
      printed :=
        match req.output with
        | OutputMode.image_id => none
        | OutputMode.image_name => none
        | OutputMode.dockerfile => some dockerfile }
  else
    let submitTag :=
      if req.name == "random" then
        "dug-" ++ pyTake 8 (env.uuids 0) ++ ":" ++ pyTake 8 (env.uuids 1)
      else req.name
    let used := if req.name == "random" then 2 else 0
    let attrs := env.buildApi dockerfile submitTag
    { dockerfile := dockerfile,
      apiCalls := [(dockerfile, submitTag)],
      uuidsUsed := used,
      printed :=
        match req.output with
        | OutputMode.image_id => some attrs.id
        | OutputMode.image_name => some (attrs.repoTags.headD "")
        | OutputMode.dockerfile => some dockerfile }

/-- One image as returned by the label-filtered query (line 153). -/
structure ImageInfo where
  id : String
  tags : List String
deriving DecidableEq

/-- What the `list` command shows: either the two-column table built by
util.custom_tabulate (modelled from the spec as the list of its rows, since
util.py is not among the sources) or the explicit none-found message
(line 166). -/
inductive ListOutput where
  | table : List (String × List String) → ListOutput
  | noneFound : ListOutput
deriving DecidableEq

/-- Line 158: Python `image_id.replace('sha256:', '')` removes every
occurrence of the 7-character pattern, scanning left to right. -/
def removeSha256 : List Char → List Char
  | [] => []
  | c :: rest =>
    if ("sha256:".data).isPrefixOf (c :: rest) then removeSha256 (rest.drop 6)
    else c :: removeSha256 rest
termination_by s => s.length
decreasing_by
  all_goals simp [List.length_drop]
  omega

/-- Lines 156-158: the identifier printed for one image. -/
def render_image_id (short : Bool) (id : String) : String :=
  if short then pyTake 12 ⟨removeSha256 id.data⟩ else id

/-- Lines 151-166: the `list` command as a function of the images the docker
API returns for the dugaire label filter. -/
def runList (short : Bool) (images : List ImageInfo) : ListOutput :=
  let print_images :=
    images.map (fun image => (render_image_id short image.id, image.tags))
  if print_images.length ≠ 0 then ListOutput.table print_images
  else ListOutput.noneFound

/-- Spec side (DockerfileText): the four fragment shapes. -/
inductive Frag where
  | base : String → String → Frag
  | apt : String → Frag
  | pip : String → Frag
  | kubectl : String → Frag
deriving DecidableEq

/-- Renders one fragment through its template. -/
def renderFrag : Frag → String
  | Frag.base f l => render_base f l
  | Frag.apt p => render_apt p
  | Frag.pip p => render_pip3 p
  | Frag.kubectl u => render_with_kubectl u

/-- Spec side (DockerfileText): the ordered list of present fragments, in the
fixed order base, apt, pip, kubectl. -/
def fragments (from_ : String) (apt pip3 with_kubectl : Option String) :
    List Frag :=
  [Frag.base from_ dugaire_image_label]
    ++ (if truthy apt then [Frag.apt (replaceCommaSpace (apt.getD ""))] else [])
    ++ (if truthy pip3 then [Frag.pip (replaceCommaSpace (pip3.getD ""))] else [])
    ++ (if truthy with_kubectl then
          [Frag.kubectl (kubectl_url (with_kubectl.getD ""))]
        else [])

/-- Spec side: ordered concatenation of independently-rendered fragments. -/
def joinFrags (fs : List Frag) : String :=
  fs.foldr (fun fr acc => renderFrag fr ++ acc) ""

/-- The kind of a fragment, forgetting its payload. -/
inductive FragKind where
  | base
  | apt
  | pip
  | kubectl
deriving DecidableEq

/-- Forgets a fragment's payload. -/
def fragKind : Frag → FragKind
  | Frag.base _ _ => FragKind.base
  | Frag.apt _ => FragKind.apt
  | Frag.pip _ => FragKind.pip
  | Frag.kubectl _ => FragKind.kubectl

lemma data_empty : ("" : String).data = [] := rfl

lemma compose_eq_joinFrags (f : String) (a p k : Option String) :
    compose f a p k = joinFrags (fragments f a p k) := by
  unfold compose fragments
  cases ha : truthy a <;> cases hp : truthy p <;> cases hk : truthy k <;>
    simp only [if_true, if_false, Bool.false_eq_true, ite_false, ite_true,
      joinFrags, List.foldr, renderFrag, List.append_nil, List.nil_append,
      List.cons_append, List.foldr_cons, List.foldr_nil] <;>
    apply String.ext <;>
    simp [String.data_append, data_empty, List.append_assoc]

lemma truthy_iff (o : Option String) :
    truthy o = true ↔ ∃ s, o = some s ∧ s ≠ "" := by
  cases o <;> simp [truthy]

/-- C1: rendering the Dockerfile is a deterministic function of the request
fields: two runs of `build` with the same request, against arbitrary (and
arbitrarily different) external environments, compose byte-identical
Dockerfile text, namely `compose` of the request's fields. -/
theorem compose_deterministic (req : BuildRequest) (env₁ env₂ : DockerEnv) :
    (runBuild req env₁).dockerfile = (runBuild req env₂).dockerfile
    ∧ (runBuild req env₁).dockerfile
        = compose req.from_ req.apt req.pip3 req.with_kubectl := by
  unfold runBuild
  by_cases h : req.dry_run <;> simp [h]

/-- C2: for every request the rendered Dockerfile is the ordered concatenation
of the present fragments, and the sequence of present fragment kinds is always
a subsequence of the fixed order base, apt, pip, kubectl, starting with the
base fragment, for every subset of the optional fragments. -/
theorem dockerfile_fragment_order (f : String) (a p k : Option String) :
    compose f a p k = joinFrags (fragments f a p k)
    ∧ List.Sublist ((fragments f a p k).map fragKind)
        [FragKind.base, FragKind.apt, FragKind.pip, FragKind.kubectl]
    ∧ ((fragments f a p k).map fragKind).head? = some FragKind.base := by
  refine ⟨compose_eq_joinFrags f a p k, ?_, ?_⟩ <;>
  · unfold fragments
    cases ha : truthy a <;> cases hp : truthy p <;> cases hk : truthy k <;>
      simp [fragKind]

/-- C3: each optional fragment is present in the composed Dockerfile (which is
the concatenation of the fragment list) if and only if its input is present
and non-empty. -/
theorem fragment_presence (f : String) (a p k : Option String) :
    compose f a p k = joinFrags (fragments f a p k)
    ∧ ((FragKind.apt ∈ (fragments f a p k).map fragKind)
        ↔ ∃ s, a = some s ∧ s ≠ "")
    ∧ ((FragKind.pip ∈ (fragments f a p k).map fragKind)
        ↔ ∃ s, p = some s ∧ s ≠ "")
    ∧ ((FragKind.kubectl ∈ (fragments f a p k).map fragKind)
        ↔ ∃ s, k = some s ∧ s ≠ "") := by
  refine ⟨compose_eq_joinFrags f a p k, ?_, ?_, ?_⟩ <;>
  · rw [← truthy_iff]
    unfold fragments
    cases ha : truthy a <;> cases hp : truthy p <;> cases hk : truthy k <;>
      simp [fragKind]

lemma compose_data_head (f : String) (a p k : Option String) :
    ∃ t : List Char, (compose f a p k).data = "FROM ".data ++ (f.data ++ t) := by
  unfold compose render_base
  cases ha : truthy a <;> cases hp : truthy p <;> cases hk : truthy k <;>
    simp [String.data_append, data_empty, List.append_assoc]

lemma from_infix_compose (f : String) (a p k : Option String) :
    f.data <:+: (compose f a p k).data ∧ compose f a p k ≠ "" := by
  obtain ⟨t, ht⟩ := compose_data_head f a p k
  constructor
  · exact ⟨"FROM ".data, t, by rw [ht]; simp [List.append_assoc]⟩
  · intro heq
    rw [heq] at ht
    simp [data_empty] at ht

/-- C5: with dry_run set, `build` never calls the container-build API (and
draws no random names); with output mode dockerfile it still prints the
non-empty composed text, which contains the base image reference, while output
modes image-id and image-name print the null value. -/
theorem dry_run_frame (req : BuildRequest) (env : DockerEnv)
    (h : req.dry_run = true) :
    (runBuild req env).apiCalls = []
    ∧ (runBuild req env).uuidsUsed = 0
    ∧ (req.output = OutputMode.dockerfile →
        (runBuild req env).printed = some (runBuild req env).dockerfile
        ∧ (runBuild req env).dockerfile ≠ ""
        ∧ req.from_.data <:+: (runBuild req env).dockerfile.data)
    ∧ (req.output = OutputMode.image_id → (runBuild req env).printed = none)
    ∧ (req.output = OutputMode.image_name → (runBuild req env).printed = none) := by
  have hfrom := from_infix_compose req.from_ req.apt req.pip3 req.with_kubectl
  unfold runBuild
  simp only [h, if_true, ite_true]
  refine ⟨by simp, by simp, ?_, ?_, ?_⟩ <;> intro ho <;> simp [ho]
  exact ⟨hfrom.2, hfrom.1⟩

/-- A concrete dry-run request used to witness the dry-run frame theorem. -/
def reqDry : BuildRequest :=
  { from_ := "ubuntu:18.04", apt := some "curl,vim", pip3 := none,
    with_kubectl := none, name := "random", dry_run := true,
    output := OutputMode.dockerfile }

/-- A trivial concrete environment for witnesses. -/
def env0 : DockerEnv :=
  { uuids := fun _ => "123e4567-e89b-12d3-a456-426614174000",
    buildApi := fun _ _ => { id := "sha256:abc", repoTags := ["t:1"] } }

/-- Witness for the dry-run frame theorem at a concrete request. -/
theorem dry_run_frame_witness :
    (runBuild reqDry env0).apiCalls = []
    ∧ (runBuild reqDry env0).uuidsUsed = 0
    ∧ (reqDry.output = OutputMode.dockerfile →
        (runBuild reqDry env0).printed = some (runBuild reqDry env0).dockerfile
        ∧ (runBuild reqDry env0).dockerfile ≠ ""
        ∧ reqDry.from_.data <:+: (runBuild reqDry env0).dockerfile.data)
    ∧ (reqDry.output = OutputMode.image_id →
        (runBuild reqDry env0).printed = none)
    ∧ (reqDry.output = OutputMode.image_name →
        (runBuild reqDry env0).printed = none) :=
  dry_run_frame reqDry env0 rfl

/-- C7: in a real (non-dry-run) build, when the name is the sentinel "random"
the submission tag is a fresh `dug-name:tag` pair built from two independent
draws of the uuid stream made at build time; an explicit name is submitted
unchanged and draws nothing; and in a dry run nothing is submitted and no
random name is ever generated. -/
theorem random_name_policy (req : BuildRequest) (env : DockerEnv) :
    (req.dry_run = false → req.name = "random" →
      (runBuild req env).apiCalls =
        [(compose req.from_ req.apt req.pip3 req.with_kubectl,
          "dug-" ++ pyTake 8 (env.uuids 0) ++ ":" ++ pyTake 8 (env.uuids 1))]
      ∧ (runBuild req env).uuidsUsed = 2)
    ∧ (req.dry_run = false → req.name ≠ "random" →
      (runBuild req env).apiCalls =
        [(compose req.from_ req.apt req.pip3 req.with_kubectl, req.name)]
      ∧ (runBuild req env).uuidsUsed = 0)
    ∧ (req.dry_run = true →
      (runBuild req env).apiCalls = [] ∧ (runBuild req env).uuidsUsed = 0) := by
  refine ⟨?_, ?_, ?_⟩ <;> intro hd <;> unfold runBuild <;> simp [hd]
  · intro hn; simp [hn]
  · intro hn; simp [hn]

/-- A concrete non-dry-run request with the sentinel name. -/
def reqRandom : BuildRequest :=
  { from_ := "ubuntu:18.04", apt := some "curl,vim", pip3 := none,
    with_kubectl := none, name := "random", dry_run := false,
    output := OutputMode.image_id }

/-- A concrete non-dry-run request with an explicit name. -/
def reqNamed : BuildRequest :=
  { reqRandom with name := "myimage:0.0.1" }

/-- Witness for the random-name policy at concrete requests: one sentinel-named
run, one explicitly named run, one dry run. -/
theorem random_name_policy_witness :
    ((runBuild reqRandom env0).apiCalls =
      [(compose reqRandom.from_ reqRandom.apt reqRandom.pip3
          reqRandom.with_kubectl,
        "dug-" ++ pyTake 8 (env0.uuids 0) ++ ":" ++ pyTake 8 (env0.uuids 1))]
      ∧ (runBuild reqRandom env0).uuidsUsed = 2)
    ∧ ((runBuild reqNamed env0).apiCalls =
        [(compose reqNamed.from_ reqNamed.apt reqNamed.pip3
            reqNamed.with_kubectl, reqNamed.name)]
      ∧ (runBuild reqNamed env0).uuidsUsed = 0)
    ∧ ((runBuild reqDry env0).apiCalls = []
      ∧ (runBuild reqDry env0).uuidsUsed = 0) :=
  ⟨(random_name_policy reqRandom env0).1 rfl rfl,
   (random_name_policy reqNamed env0).2.1 rfl (by decide),
   (random_name_policy reqDry env0).2.2 rfl⟩

lemma length_pyTake (n : Nat) (s : String) :
    (pyTake n s).length = min n s.length := by
  show (s.data.take n).length = min n s.data.length
  simp [List.length_take]

/-- C10: whenever the random branch is taken (sentinel name, not a dry run)
and the uuid stream yields canonical 36-character uuid4 strings, the submitted
tag is exactly `dug-` followed by an 8-character segment, a colon, and an
8-character segment, the segments being the first 8 characters of the two
independently drawn uuid strings. -/
theorem random_tag_shape (req : BuildRequest) (env : DockerEnv)
    (hdry : req.dry_run = false) (hname : req.name = "random")
    (hlen : ∀ i, (env.uuids i).length = 36) :
    ∃ s1 s2 : String,
      (runBuild req env).apiCalls =
        [(compose req.from_ req.apt req.pip3 req.with_kubectl,
          "dug-" ++ s1 ++ ":" ++ s2)]
      ∧ s1 = pyTake 8 (env.uuids 0) ∧ s2 = pyTake 8 (env.uuids 1)
      ∧ s1.length = 8 ∧ s2.length = 8 := by
  refine ⟨pyTake 8 (env.uuids 0), pyTake 8 (env.uuids 1),
    ((random_name_policy req env).1 hdry hname).1, rfl, rfl, ?_, ?_⟩ <;>
    simp [length_pyTake, hlen]

/-- Witness for the random-tag shape theorem at a concrete request and a
concrete uuid stream of canonical 36-character strings. -/
theorem random_tag_shape_witness :
    ∃ s1 s2 : String,
      (runBuild reqRandom env0).apiCalls =
        [(compose reqRandom.from_ reqRandom.apt reqRandom.pip3
            reqRandom.with_kubectl, "dug-" ++ s1 ++ ":" ++ s2)]
      ∧ s1 = pyTake 8 (env0.uuids 0) ∧ s2 = pyTake 8 (env0.uuids 1)
      ∧ s1.length = 8 ∧ s2.length = 8 :=
  random_tag_shape reqRandom env0 rfl rfl (fun _ => rfl)

/-- C8: the list command prints the explicit none-found message exactly when
the label-filtered query returns zero images; otherwise it prints the table of
(identifier, tags) rows, one per image, and not the none-found message. -/
theorem list_none_found (short : Bool) (images : List ImageInfo) :
    (images = [] → runList short images = ListOutput.noneFound)
    ∧ (images ≠ [] →
        runList short images =
          ListOutput.table
            (images.map (fun im => (render_image_id short im.id, im.tags)))
        ∧ runList short images ≠ ListOutput.noneFound) := by
  constructor
  · intro h; subst h; rfl
  · intro h
    unfold runList
    rw [if_pos]
    · simp
    · simp [h]

/-- A concrete image record for witnesses. -/
def imgW : ImageInfo := { id := "sha256:abc", tags := ["t:1"] }

/-- Witness for the list none-found theorem: the empty query and a one-image
query. -/
theorem list_none_found_witness :
    runList true [] = ListOutput.noneFound
    ∧ (runList true [imgW] =
        ListOutput.table
          ([imgW].map (fun im => (render_image_id true im.id, im.tags)))
      ∧ runList true [imgW] ≠ ListOutput.noneFound) :=
  ⟨(list_none_found true []).1 rfl,
   (list_none_found true [imgW]).2 (by decide)⟩

lemma removeSha256_append_pat (l : List Char) :
    removeSha256 ("sha256:".data ++ l) = removeSha256 l := by
  show removeSha256 ('s' :: ("ha256:".data ++ l)) = removeSha256 l
  rw [removeSha256]
  rw [if_pos, List.drop_append_of_le_length (by simp)]
  · norm_num
  · exact List.isPrefixOf_iff_prefix.mpr (List.prefix_append _ _)

lemma removeSha256_of_not_infix {l : List Char}
    (h : ¬ "sha256:".data <:+: l) : removeSha256 l = l := by
  induction l with
  | nil => rw [removeSha256]
  | cons c tl ih =>
    rw [removeSha256, if_neg, ih]
    · intro hi; exact h (List.infix_cons hi)
    · intro hp
      exact h ((List.isPrefixOf_iff_prefix.mp hp).isInfix)

/-- C9: the identifier the list command renders is, with the short option on,
the identifier with its structural `sha256:` prefix stripped and the result
truncated to its first 12 characters; with the short option off it is the full
identifier unchanged. -/
theorem short_id_rendering (rest : String) (tags : List String)
    (h : ¬ "sha256:".data <:+: rest.data) :
    runList true [⟨"sha256:" ++ rest, tags⟩] =
      ListOutput.table [(⟨rest.data.take 12⟩, tags)]
    ∧ runList false [⟨"sha256:" ++ rest, tags⟩] =
      ListOutput.table [("sha256:" ++ rest, tags)] := by
  constructor
  · unfold runList render_image_id pyTake
    rw [if_pos (by simp)]
    simp only [List.map_cons, List.map_nil, if_true, ite_true]
    rw [String.data_append, removeSha256_append_pat,
      removeSha256_of_not_infix h]
  · rfl

/-- Witness for the short-id rendering theorem at a concrete identifier. -/
theorem short_id_rendering_witness :
    runList true [⟨"sha256:" ++ "0123456789abcdef", ["t:1"]⟩] =
      ListOutput.table [(⟨("0123456789abcdef" : String).data.take 12⟩, ["t:1"])]
    ∧ runList false [⟨"sha256:" ++ "0123456789abcdef", ["t:1"]⟩] =
      ListOutput.table [("sha256:" ++ "0123456789abcdef", ["t:1"])] :=
  short_id_rendering "0123456789abcdef" ["t:1"] (by decide)

lemma infix_append_split {α : Type} {m x y : List α} (h : m <:+: x ++ y) :
    m <:+: x ∨ m <:+: y ∨
      ∃ k, 0 < k ∧ k < m.length ∧ m.take k <:+ x ∧ m.drop k <+: y := by
  induction x with
  | nil => exact Or.inr (Or.inl (by simpa using h))
  | cons a x ih =>
    rw [List.cons_append] at h
    rcases List.infix_cons_iff.mp h with hpre | hinf
    · have hpre' : m <+: (a :: x) ++ y := by simpa using hpre
      by_cases hlen : m.length ≤ (a :: x).length
      · left
        have hm : m <+: a :: x :=
          List.prefix_of_prefix_length_le hpre' (List.prefix_append _ _) hlen
        obtain ⟨t, ht⟩ := hm
        exact ⟨[], t, by simpa using ht⟩
      · push_neg at hlen
        obtain ⟨t, ht⟩ := hpre'
        refine Or.inr (Or.inr ⟨(a :: x).length, by simp, hlen, ?_, ?_⟩)
        · have htake : m.take (a :: x).length = a :: x := by
            have h1 : (m ++ t).take (a :: x).length = m.take (a :: x).length :=
              List.take_append_of_le_length (le_of_lt hlen)
            have h2 : ((a :: x) ++ y).take (a :: x).length = a :: x :=
              List.take_left _ _
            rw [← h1, ht, h2]
          rw [htake]
        · have hdrop : m.drop (a :: x).length ++ t = y := by
            have h1 : (m ++ t).drop (a :: x).length
                = m.drop (a :: x).length ++ t :=
              List.drop_append_of_le_length (le_of_lt hlen)
            have h2 : ((a :: x) ++ y).drop (a :: x).length = y :=
              List.drop_left _ _
            rw [← h1, ht, h2]
          exact ⟨t, hdrop⟩
    · rcases ih hinf with h1 | h2 | ⟨k, hk0, hkm, ht, hd⟩
      · left; exact List.infix_cons h1
      · right; left; exact h2
      · exact Or.inr (Or.inr
          ⟨k, hk0, hkm, ht.trans (List.suffix_cons a x), hd⟩)

lemma not_infix_append {α : Type} {m x y : List α}
    (hx : ¬ m <:+: x) (hy : ¬ m <:+: y)
    (hs : ∀ k, 0 < k → k < m.length →
      ¬(m.take k <:+ x) ∨ ¬(m.drop k <+: y)) :
    ¬ m <:+: x ++ y := by
  intro h
  rcases infix_append_split h with h1 | h2 | ⟨k, hk0, hkm, ht, hd⟩
  · exact hx h1
  · exact hy h2
  · rcases hs k hk0 hkm with hc | hc
    · exact hc ht
    · exact hc hd

/-- The stable-release lookup marker of the build-time resolution command. -/
def stableMark : List Char := "stable.txt".data

lemma stableMark_take_not_suffix_release :
    ∀ k, k < stableMark.length → 0 < k →
      ¬(stableMark.take k <:+ kubectl_release_v.data) := by decide

lemma stableMark_drop_not_prefix_post :
    ∀ k, k < stableMark.length → 0 < k →
      ¬(stableMark.drop k <+: kubectl_url_post.data) := by decide

lemma stableMark_take_not_suffix_pre :
    ∀ k, k < stableMark.length → 0 < k →
      ¬(stableMark.take k <:+ kubectl_frag_pre.data) := by decide

lemma stableMark_drop_not_prefix_fragpost :
    ∀ k, k < stableMark.length → 0 < k →
      ¬(stableMark.drop k <+: kubectl_frag_post.data) := by decide

lemma kubectl_url_of_ne {v : String} (hne : v ≠ "latest") :
    kubectl_url v = kubectl_release_v ++ v ++ kubectl_url_post := by
  unfold kubectl_url
  rw [if_pos]
  simp [hne]

lemma stableMark_not_in_versioned_url {v : String} (hne : v ≠ "latest")
    (hv : ¬ stableMark <:+: v.data) :
    ¬ stableMark <:+: (kubectl_url v).data := by
  rw [kubectl_url_of_ne hne]
  have hd : (kubectl_release_v ++ v ++ kubectl_url_post).data
      = kubectl_release_v.data ++ (v.data ++ kubectl_url_post.data) := by
    simp [String.data_append, List.append_assoc]
  rw [hd]
  refine not_infix_append (by decide) ?_
    (fun k hk0 hkm => Or.inl (stableMark_take_not_suffix_release k hkm hk0))
  exact not_infix_append hv (by decide)
    (fun k hk0 hkm => Or.inr (stableMark_drop_not_prefix_post k hkm hk0))

lemma stableMark_not_in_versioned_frag {v : String} (hne : v ≠ "latest")
    (hv : ¬ stableMark <:+: v.data) :
    ¬ stableMark <:+: (render_with_kubectl (kubectl_url v)).data := by
  unfold render_with_kubectl
  have hd : (kubectl_frag_pre ++ kubectl_url v ++ kubectl_frag_post).data
      = kubectl_frag_pre.data
        ++ ((kubectl_url v).data ++ kubectl_frag_post.data) := by
    simp [String.data_append, List.append_assoc]
  rw [hd]
  refine not_infix_append (by decide) ?_
    (fun k hk0 hkm => Or.inl (stableMark_take_not_suffix_pre k hkm hk0))
  exact not_infix_append (stableMark_not_in_versioned_url hne hv) (by decide)
    (fun k hk0 hkm => Or.inr (stableMark_drop_not_prefix_fragpost k hkm hk0))

lemma v_version_in_versioned_frag {v : String} (hne : v ≠ "latest") :
    ("v" ++ v).data <:+: (render_with_kubectl (kubectl_url v)).data := by
  rw [kubectl_url_of_ne hne]
  unfold render_with_kubectl
  refine ⟨kubectl_frag_pre.data
      ++ "https://storage.googleapis.com/kubernetes-release/release/".data,
    kubectl_url_post.data ++ kubectl_frag_post.data, ?_⟩
  rw [show kubectl_release_v
      = "https://storage.googleapis.com/kubernetes-release/release/" ++ "v"
    from by decide]
  apply String.ext_iff.mp
  apply String.ext
  simp [String.data_append, List.append_assoc]

/-- C4: the kubectl fragment for the sentinel "latest" embeds the build-time
stable-release resolution command (the `stable.txt` lookup) and no concrete
versioned path such as `v1.17.0`; for any other requested version `v` the
fragment embeds the direct download url containing the literal `"v" ++ v` and,
as long as the version text itself does not mention the lookup, no resolution
command at all. -/
theorem kubectl_version_resolution (v : String) (hne : v ≠ "latest")
    (hclean : ¬ stableMark <:+: v.data) :
    stableMark <:+: (render_with_kubectl (kubectl_url "latest")).data
    ∧ ¬ ("v1.17.0" : String).data <:+: (kubectl_url "latest").data
    ∧ kubectl_url v = kubectl_release_v ++ v ++ kubectl_url_post
    ∧ ("v" ++ v).data <:+: (render_with_kubectl (kubectl_url v)).data
    ∧ ¬ stableMark <:+: (render_with_kubectl (kubectl_url v)).data :=
  ⟨by decide, by decide, kubectl_url_of_ne hne,
   v_version_in_versioned_frag hne, stableMark_not_in_versioned_frag hne hclean⟩

/-- Witness for the kubectl resolution theorem at the concrete version
1.17.0 from the spec's example. -/
theorem kubectl_version_resolution_witness :
    stableMark <:+: (render_with_kubectl (kubectl_url "latest")).data
    ∧ ¬ ("v1.17.0" : String).data <:+: (kubectl_url "latest").data
    ∧ kubectl_url "1.17.0" = kubectl_release_v ++ "1.17.0" ++ kubectl_url_post
    ∧ ("v" ++ "1.17.0").data
        <:+: (render_with_kubectl (kubectl_url "1.17.0")).data
    ∧ ¬ stableMark <:+: (render_with_kubectl (kubectl_url "1.17.0")).data :=
  kubectl_version_resolution "1.17.0" (by decide) (by decide)

/-- Joins package names with a separator character; with `','` this is the
caller's comma-separated input string, with `' '` the space-separated install
argument of the spec. -/
def joinWith (sep : Char) : List String → String
  | [] => ""
  | [p] => p
  | p :: ps => p ++ String.singleton sep ++ joinWith sep ps

lemma joinWith_cons_cons (sep : Char) (p q : String) (qs : List String) :
    joinWith sep (p :: q :: qs)
      = p ++ String.singleton sep ++ joinWith sep (q :: qs) := by
  rw [joinWith]
  simp

lemma replaceCommaSpace_append (a b : String) :
    replaceCommaSpace (a ++ b) = replaceCommaSpace a ++ replaceCommaSpace b := by
  apply String.ext
  simp [replaceCommaSpace, String.data_append]

lemma replaceCommaSpace_no_comma {s : String} (h : ',' ∉ s.data) :
    replaceCommaSpace s = s := by
  apply String.ext
  show s.data.map (fun c => if c = ',' then ' ' else c) = s.data
  have hc : ∀ c ∈ s.data, (if c = ',' then ' ' else c) = id c := by
    intro c hcm
    rw [if_neg]
    · rfl
    · intro he
      subst he
      exact h hcm
  rw [List.map_congr_left hc, List.map_id]

lemma joinWith_comma_to_space (pkgs : List String)
    (h : ∀ p ∈ pkgs, ',' ∉ p.data) :
    replaceCommaSpace (joinWith ',' pkgs) = joinWith ' ' pkgs := by
  induction pkgs with
  | nil => apply String.ext; rfl
  | cons p ps ih =>
    cases ps with
    | nil => exact replaceCommaSpace_no_comma (h p (by simp))
    | cons q qs =>
      have hp : ',' ∉ p.data := h p (by simp)
      have hrest : ∀ r ∈ q :: qs, ',' ∉ r.data :=
        fun r hr => h r (by simp; exact Or.inr (by simpa using hr))
      rw [joinWith_cons_cons, joinWith_cons_cons, replaceCommaSpace_append,
        replaceCommaSpace_append, ih hrest, replaceCommaSpace_no_comma hp]
      congr 1

lemma joinWith_ne_empty {sep : Char} {pkgs : List String} (hne : pkgs ≠ [])
    (hp : ∀ p ∈ pkgs, p ≠ "") : joinWith sep pkgs ≠ "" := by
  cases pkgs with
  | nil => exact absurd rfl hne
  | cons p ps =>
    cases ps with
    | nil => exact hp p (by simp)
    | cons q qs =>
      rw [joinWith_cons_cons]
      intro he
      have hd := congrArg String.data he
      simp [String.data_append, data_empty] at hd

/-- C6: a non-empty comma-separated package input yields an install fragment
whose argument is exactly the same packages joined by single spaces, in the
caller's order, with no deduplication and no sorting; this holds for the apt
input and for the pip3 input alike. -/
theorem package_join_order (pkgs : List String) (hne : pkgs ≠ [])
    (hp : ∀ p ∈ pkgs, p ≠ "" ∧ ',' ∉ p.data) :
    replaceCommaSpace (joinWith ',' pkgs) = joinWith ' ' pkgs
    ∧ (∀ f p3 k, Frag.apt (joinWith ' ' pkgs)
        ∈ fragments f (some (joinWith ',' pkgs)) p3 k)
    ∧ (∀ f a k, Frag.pip (joinWith ' ' pkgs)
        ∈ fragments f a (some (joinWith ',' pkgs)) k) := by
  have hs : joinWith ',' pkgs ≠ "" :=
    joinWith_ne_empty hne (fun p hp' => (hp p hp').1)
  have ht : truthy (some (joinWith ',' pkgs)) = true := by
    simp [truthy, hs]
  have h1 : replaceCommaSpace (joinWith ',' pkgs) = joinWith ' ' pkgs :=
    joinWith_comma_to_space pkgs (fun p hp' => (hp p hp').2)
  refine ⟨h1, ?_, ?_⟩ <;> intro f o k <;>
    simp [fragments, ht, h1, List.mem_append]

/-- Witness for the package-join theorem at the concrete input curl,vim. -/
theorem package_join_order_witness :
    replaceCommaSpace (joinWith ',' ["curl", "vim"])
      = joinWith ' ' ["curl", "vim"]
    ∧ Frag.apt (joinWith ' ' ["curl", "vim"])
        ∈ fragments "ubuntu:18.04" (some (joinWith ',' ["curl", "vim"]))
            none none
    ∧ Frag.pip (joinWith ' ' ["curl", "vim"])
        ∈ fragments "ubuntu:18.04" none (some (joinWith ',' ["curl", "vim"]))
            none := by
  have h := package_join_order ["curl", "vim"] (by decide) (by decide)
  exact ⟨h.1, h.2.1 "ubuntu:18.04" none none, h.2.2 "ubuntu:18.04" none none⟩

end Dugaire
